import Mathlib

/-!
Verification of the request-binding engine in
src/providers/httpserver/data_bind.go.

The Go code walks a caller-supplied target value with reflection and
populates it from string-valued source maps (form, query, path params).
We shallow-embed the reflective value universe as an inductive type
GoValue: a value carries its kind-level data (widths for the integer,
unsigned and float families) together with the two optional
custom-unmarshal capabilities that Go resolves by interface assertion
on the field's address (echo.BindUnmarshaler.UnmarshalParam and
encoding.TextUnmarshaler.UnmarshalText).  A capability is modeled as a
function from the incoming string to either an error message or the
replacement core of the value (Go type identity cannot change across a
method call, so the capabilities are preserved).

Reflect panics (out-of-range index, Elem of a nil pointer, SetInt on a
non-integer value, ...) are modeled by returning none: every engine
function runs in an Option "panic monad".  Machine integers are Nat/Int
with explicit range checks and truncating stores (% 2^w) exactly where
the Go code range-checks or stores.  Floating point fields store exact
rationals: strconv.ParseFloat is modeled as exact decimal parsing, IEEE
rounding and the inf/nan spellings are abstracted away (no claim
depends on them).  Go map iteration order is modeled by list order.
-/

set_option autoImplicit false

namespace DataBind

/-- Bit widths of the Go signed/unsigned integer kinds
(w0 stands for the unspecified-width int/uint kind). -/
inductive IW where
  | w0 | w8 | w16 | w32 | w64
  deriving DecidableEq

/-- The bitSize constant the Go code passes to strconv for each integer
kind: Int maps to 0, Int8 to 8, ..., Int64 to 64 (and likewise Uint). -/
def IW.bits : IW → Nat
  | .w0 => 0
  | .w8 => 8
  | .w16 => 16
  | .w32 => 32
  | .w64 => 64

/-- Bit widths of the Go floating point kinds. -/
inductive FW where
  | f32 | f64
  deriving DecidableEq

def FW.bits : FW → Nat
  | .f32 => 32
  | .f64 => 64

/-- reflect.Kind, restricted to the kinds the binder distinguishes.
All remaining Go kinds (Array, Chan, Func, Interface, ...) behave
identically in data_bind.go and are collapsed into kOther. -/
inductive Kind where
  | kPtr
  | kInt (w : IW)
  | kUint (w : IW)
  | kBool
  | kFloat (w : FW)
  | kString
  | kStruct
  | kSlice
  | kMap
  | kOther
  deriving DecidableEq

/-- Effective width: strconv treats bitSize 0 as the platform int,
64 bits on the platforms this repository targets. -/
def effBits (bitSize : Nat) : Nat :=
  if bitSize = 0 then 64 else bitSize

/-- Error text of a Go strconv NumError, as produced by err.Error():
strconv.Fn: parsing "s": reason.  (%q quoting of exotic characters is
abbreviated to plain double quotes; the claims only compare errors for
identity.) -/
def numError (fn s reason : String) : String :=
  "strconv." ++ fn ++ ": parsing \x22" ++ s ++ "\x22: " ++ reason

/-- The decimal value of a digit list (only meaningful when all
characters are digits). -/
def digitsVal (cs : List Char) : Nat :=
  cs.foldl (fun a c => a * 10 + (c.toNat - '0'.toNat)) 0

/-- Reads a non-empty, all-ASCII-digit character list as a Nat. -/
def digitsToNat? (cs : List Char) : Option Nat :=
  if cs.isEmpty || !cs.all Char.isDigit then none else some (digitsVal cs)

/-- strconv.ParseInt(s, 10, bitSize): optional sign, then base-10
digits, range-checked against the signed range of the given width. -/
def ParseInt (s : String) (bitSize : Nat) : Except String Int :=
  let b := effBits bitSize
  match s.data with
  | [] => .error (numError "ParseInt" s "invalid syntax")
  | c :: rest =>
    let (neg, ds) :=
      if c = '-' then (true, rest)
      else if c = '+' then (false, rest)
      else (false, c :: rest)
    match digitsToNat? ds with
    | none => .error (numError "ParseInt" s "invalid syntax")
    | some m =>
      let v : Int := if neg then -(m : Int) else (m : Int)
      if v < -(2 ^ (b - 1) : Int) ∨ (2 ^ (b - 1) : Int) - 1 < v then
        .error (numError "ParseInt" s "value out of range")
      else .ok v

/-- strconv.ParseUint(s, 10, bitSize): base-10 digits, no sign
permitted, range-checked against the unsigned range of the width. -/
def ParseUint (s : String) (bitSize : Nat) : Except String Nat :=
  let b := effBits bitSize
  match digitsToNat? s.data with
  | none => .error (numError "ParseUint" s "invalid syntax")
  | some m =>
    if 2 ^ b ≤ m then .error (numError "ParseUint" s "value out of range")
    else .ok m

/-- strconv.ParseBool: the exact token lists Go recognizes. -/
def ParseBool (s : String) : Except String Bool :=
  if s = "1" ∨ s = "t" ∨ s = "T" ∨ s = "TRUE" ∨ s = "true" ∨ s = "True" then
    .ok true
  else if s = "0" ∨ s = "f" ∨ s = "F" ∨ s = "FALSE" ∨ s = "false" ∨ s = "False" then
    .ok false
  else .error (numError "ParseBool" s "invalid syntax")

/-- Decimal part of the strconv.ParseFloat grammar: optional sign,
digits with an optional fraction, optional decimal exponent.  The value
is kept as an exact rational; IEEE rounding to the requested bit width
and the inf/nan spellings are abstracted away. -/
def parseFloatCore (cs : List Char) : Option Rat :=
  let (neg, cs1) :=
    match cs with
    | '-' :: r => (true, r)
    | '+' :: r => (false, r)
    | cs => (false, cs)
  let ip := cs1.takeWhile Char.isDigit
  let cs2 := cs1.dropWhile Char.isDigit
  let (fp, cs3) :=
    match cs2 with
    | '.' :: r => (r.takeWhile Char.isDigit, r.dropWhile Char.isDigit)
    | _ => ([], cs2)
  if ip.isEmpty && fp.isEmpty then none
  else
    let mant : Rat := (digitsVal ip : Rat) + (digitsVal fp : Rat) / (10 : Rat) ^ fp.length
    let signed := if neg then -mant else mant
    match cs3 with
    | [] => some signed
    | e :: r =>
      if e = 'e' ∨ e = 'E' then
        let (eneg, r2) :=
          match r with
          | '-' :: r2 => (true, r2)
          | '+' :: r2 => (false, r2)
          | r2 => (false, r2)
        match digitsToNat? r2 with
        | none => none
        | some ex => some (if eneg then signed / (10 : Rat) ^ ex else signed * (10 : Rat) ^ ex)
      else none

/-- strconv.ParseFloat(s, bitSize), under the abstraction described at
parseFloatCore (the bit width only affects rounding, which is
abstracted, so it is unused here). -/
def ParseFloat (s : String) (bitSize : Nat) : Except String Rat :=
  match parseFloatCore s.data with
  | some q => .ok q
  | none => .error (numError "ParseFloat" s "invalid syntax")

/-- strings.EqualFold, modeled with per-character simple lower-casing
(it agrees with Go on ASCII keys, which is what the binder's
case-insensitive fallback is documented for). -/
def eqFold (a b : String) : Bool :=
  a.data.map Char.toLower == b.data.map Char.toLower

/-- reflect.StructTag.Get: the empty string when the key is absent. -/
def tagGet (tags : List (String × String)) (key : String) : String :=
  (((tags.find? (fun t => t.1 = key)).map (fun t => t.2)).getD "")

/-- Truncating store of reflect.Value.SetInt into a field of width
bitSize (two's complement wrap-around).  Every call site parses with
the same bitSize as the destination width, so this is the identity in
every reachable store. -/
def truncInt (bitSize : Nat) (n : Int) : Int :=
  let b := effBits bitSize
  (n + 2 ^ (b - 1)) % (2 ^ b : Int) - 2 ^ (b - 1)

/-- Truncating store of reflect.Value.SetUint. -/
def truncUint (bitSize : Nat) (n : Nat) : Nat :=
  n % 2 ^ effBits bitSize

mutual

/-- A reflective Go value.  core is the kind-level payload; up and ut
are the two custom-unmarshal capabilities Go discovers by asserting the
value's address to echo.BindUnmarshaler (UnmarshalParam, a single string
parameter) and encoding.TextUnmarshaler (UnmarshalText, the string's
bytes).  A capability, being user code, is modeled as an arbitrary
function from the incoming string to an error or the replacement core
(a Go method cannot change the receiver's type, so up/ut persist). -/
inductive GoValue : Type where
  | mk (core : GoCore)
    (up : Option (String → Except String GoCore))
    (ut : Option (String → Except String GoCore))

/-- Kind-level payload of a reflective Go value.  Pointer and slice
values also carry the zero value of their element type (what
reflect.New and reflect.MakeSlice produce); a map target is a
map[string]string, the only shape bindData writes into. -/
inductive GoCore : Type where
  | cInt (w : IW) (n : Int)
  | cUint (w : IW) (n : Nat)
  | cBool (b : Bool)
  | cFloat (w : FW) (q : Rat)
  | cString (s : String)
  | cPtr (elemZero : GoValue) (inner : Option GoValue)
  | cStruct (fields : List GoField)
  | cSlice (elemZero : GoValue) (elems : List GoValue)
  | cMap (entries : List (String × String))
  | cOther

/-- One struct field as bindData sees it: declared name, the struct
tags, reflect's CanSet answer, and the current field value. -/
inductive GoField : Type where
  | mk (name : String) (tags : List (String × String)) (settable : Bool)
    (value : GoValue)

end

def GoValue.core : GoValue → GoCore
  | .mk c _ _ => c

def GoValue.up : GoValue → Option (String → Except String GoCore)
  | .mk _ u _ => u

def GoValue.ut : GoValue → Option (String → Except String GoCore)
  | .mk _ _ u => u

def GoField.name : GoField → String
  | .mk n _ _ _ => n

def GoField.tags : GoField → List (String × String)
  | .mk _ t _ _ => t

def GoField.settable : GoField → Bool
  | .mk _ _ s _ => s

def GoField.value : GoField → GoValue
  | .mk _ _ _ v => v

/-- reflect.Value.Kind of the modeled value. -/
def kindOfCore : GoCore → Kind
  | .cInt w _ => .kInt w
  | .cUint w _ => .kUint w
  | .cBool _ => .kBool
  | .cFloat w _ => .kFloat w
  | .cString _ => .kString
  | .cPtr _ _ => .kPtr
  | .cStruct _ => .kStruct
  | .cSlice _ _ => .kSlice
  | .cMap _ => .kMap
  | .cOther => .kOther

def kindOf (v : GoValue) : Kind :=
  kindOfCore v.core

/-- The Source Value Map (map[string][]string), with Go's unordered map
iteration replaced by list order.  Real Go maps have unique keys; the
list model also lets us settle the duplicate-key question the spec
raises for map targets. -/
abbrev SourceMap : Type :=
  List (String × List String)

/-- Exact-match map lookup data[name]. -/
def lookupExact (data : SourceMap) (name : String) : Option (List String) :=
  ((List.find? (fun kv => kv.1 = name) data).map (fun kv => kv.2))

/-- The case-insensitive fallback scan of bindData (lines 129-142):
iterate the map and take the first key that strings.EqualFold-matches. -/
def lookupFold (data : SourceMap) (name : String) : Option (List String) :=
  ((List.find? (fun kv => eqFold kv.1 name) data).map (fun kv => kv.2))

/-- The full lookup bindData performs: exact match first, then the
case-insensitive retry. -/
def lookupInput (data : SourceMap) (name : String) : Option (List String) :=
  match lookupExact data name with
  | some v => some v
  | none => lookupFold data name

/-- reflect.Value.SetMapIndex on a map[string]string target: overwrite
the entry under the key if one exists (a Go map holds at most one),
append the pair otherwise. -/
def mapSet : List (String × String) → String → String → List (String × String)
  | [], k, v => [(k, v)]
  | e :: es, k, v => if e.1 = k then (k, v) :: es else e :: mapSet es k v

/-- Go map lookup on the modeled map[string]string. -/
def mapLookup (entries : List (String × String)) (k : String) : Option String :=
  ((List.find? (fun e => e.1 = k) entries).map (fun e => e.2))

/-- unmarshalFieldNonPtr: assert the field's address to
echo.BindUnmarshaler first, then to encoding.TextUnmarshaler; invoke
the first capability present and report handled=true, otherwise report
handled=false without touching the field. -/
def unmarshalFieldNonPtr (value : String) (field : GoValue) :
    GoValue × Bool × Option String :=
  match field with
  | .mk c up ut =>
    match up with
    | some u =>
      match u value with
      | .ok c' => (.mk c' up ut, true, none)
      | .error e => (.mk c up ut, true, some e)
    | none =>
      match ut with
      | some u =>
        match u value with
        | .ok c' => (.mk c' up ut, true, none)
        | .error e => (.mk c up ut, true, some e)
      | none => (.mk c up ut, false, none)

/-- unmarshalFieldPtr: allocate a fresh zero element if the pointer is
nil (reflect.New), then run unmarshalFieldNonPtr on the pointee.  Go
panics if the value is not a pointer (field.IsNil on a non-pointer):
modeled as none. -/
def unmarshalFieldPtr (value : String) (field : GoValue) :
    Option (GoValue × Bool × Option String) :=
  match field with
  | .mk (.cPtr z inner) up ut =>
    let p := inner.getD z
    match unmarshalFieldNonPtr value p with
    | (p', handled, err) => some (.mk (.cPtr z (some p')) up ut, handled, err)
  | _ => none

/-- unmarshalField: dispatch on the declared kind. -/
def unmarshalField (valueKind : Kind) (value : String) (field : GoValue) :
    Option (GoValue × Bool × Option String) :=
  match valueKind with
  | .kPtr => unmarshalFieldPtr value field
  | _ => some (unmarshalFieldNonPtr value field)

/-- setIntField: empty string becomes "0"; parse with strconv.ParseInt
and store on success (SetInt); the parse error is returned verbatim.
SetInt on a non-integer value is a reflect panic: none. -/
def setIntField (value : String) (bitSize : Nat) (field : GoValue) :
    Option (GoValue × Option String) :=
  let value := if value = "" then "0" else value
  match ParseInt value bitSize with
  | .error e => some (field, some e)
  | .ok n =>
    match field with
    | .mk (.cInt w _) up ut => some (.mk (.cInt w (truncInt w.bits n)) up ut, none)
    | _ => none

/-- setUintField, as setIntField with strconv.ParseUint/SetUint. -/
def setUintField (value : String) (bitSize : Nat) (field : GoValue) :
    Option (GoValue × Option String) :=
  let value := if value = "" then "0" else value
  match ParseUint value bitSize with
  | .error e => some (field, some e)
  | .ok n =>
    match field with
    | .mk (.cUint w _) up ut => some (.mk (.cUint w (truncUint w.bits n)) up ut, none)
    | _ => none

/-- setBoolField: empty string becomes "false"; strconv.ParseBool then
SetBool. -/
def setBoolField (value : String) (field : GoValue) :
    Option (GoValue × Option String) :=
  let value := if value = "" then "false" else value
  match ParseBool value with
  | .error e => some (field, some e)
  | .ok b =>
    match field with
    | .mk (.cBool _) up ut => some (.mk (.cBool b) up ut, none)
    | _ => none

/-- setFloatField: empty string becomes "0.0"; strconv.ParseFloat then
SetFloat. -/
def setFloatField (value : String) (bitSize : Nat) (field : GoValue) :
    Option (GoValue × Option String) :=
  let value := if value = "" then "0.0" else value
  match ParseFloat value bitSize with
  | .error e => some (field, some e)
  | .ok q =>
    match field with
    | .mk (.cFloat w _) up ut => some (.mk (.cFloat w q) up ut, none)
    | _ => none

/-- When unmarshalFieldNonPtr reports handled=false, neither capability
was present, so the field is returned unchanged and there is no
error. -/
theorem unmarshalFieldNonPtr_not_handled {value : String} {f f' : GoValue}
    {e : Option String} (h : unmarshalFieldNonPtr value f = (f', false, e)) :
    f' = f ∧ e = none ∧ f.up = none ∧ f.ut = none := by
  cases f with
  | mk c up ut =>
    cases up with
    | some u =>
      cases hu : u value <;> simp [unmarshalFieldNonPtr, hu] at h
    | none =>
      cases ut with
      | some u =>
        cases hu : u value <;> simp [unmarshalFieldNonPtr, hu] at h
      | none =>
        simp [unmarshalFieldNonPtr] at h
        exact ⟨h.1.symm, h.2.symm, rfl, rfl⟩

/-- unmarshalField reduces to unmarshalFieldNonPtr on every kind other
than Ptr. -/
theorem unmarshalField_nonptr_eq {valueKind : Kind} (hk : valueKind ≠ .kPtr)
    (value : String) (field : GoValue) :
    unmarshalField valueKind value field =
      some (unmarshalFieldNonPtr value field) := by
  cases valueKind <;> first
    | exact absurd rfl hk
    | rfl

/-- Size bound used for the termination of setWithProperType: a
pointer field that came back unhandled from unmarshalField holds a
pointee structurally smaller than the original field (the pointee is
either the old pointee or the freshly allocated element zero, both
subterms). -/
theorem unmarshalField_ptr_size {valueKind : Kind} {value : String}
    {field z p : GoValue} {up ut : Option (String → Except String GoCore)}
    {e : Option String}
    (h : unmarshalField valueKind value field =
      some (.mk (.cPtr z (some p)) up ut, false, e)) :
    sizeOf p < sizeOf field := by
  by_cases hk : valueKind = Kind.kPtr
  · subst hk
    cases field with
    | mk c up0 ut0 =>
      cases c with
      | cPtr z0 inner =>
        simp only [unmarshalField, unmarshalFieldPtr] at h
        rcases hn : unmarshalFieldNonPtr value (inner.getD z0) with ⟨p1, handled, err⟩
        rw [hn] at h
        simp only [Option.some.injEq, Prod.mk.injEq, GoValue.mk.injEq,
          GoCore.cPtr.injEq, Option.some.injEq] at h
        obtain ⟨⟨⟨hz, hp⟩, hup, hut⟩, hh, he⟩ := h
        subst hh
        obtain ⟨hfix, -, -, -⟩ := unmarshalFieldNonPtr_not_handled hn
        cases inner with
        | none =>
          simp only [Option.getD] at hfix
          subst hfix
          subst hp
          simp
          omega
        | some q =>
          simp only [Option.getD] at hfix
          subst hfix
          subst hp
          simp
          omega
      | cInt w n => simp [unmarshalField, unmarshalFieldPtr] at h
      | cUint w n => simp [unmarshalField, unmarshalFieldPtr] at h
      | cBool b => simp [unmarshalField, unmarshalFieldPtr] at h
      | cFloat w q => simp [unmarshalField, unmarshalFieldPtr] at h
      | cString s => simp [unmarshalField, unmarshalFieldPtr] at h
      | cStruct fs => simp [unmarshalField, unmarshalFieldPtr] at h
      | cSlice z1 es => simp [unmarshalField, unmarshalFieldPtr] at h
      | cMap es => simp [unmarshalField, unmarshalFieldPtr] at h
      | cOther => simp [unmarshalField, unmarshalFieldPtr] at h
  · rw [unmarshalField_nonptr_eq hk] at h
    rcases hn : unmarshalFieldNonPtr value field with ⟨p1, handled, err⟩
    rw [hn] at h
    simp only [Option.some.injEq] at h
    rw [Prod.ext_iff, Prod.ext_iff] at h
    obtain ⟨h1, h2, h3⟩ := h
    simp only at h1 h2 h3
    rw [h2] at hn
    obtain ⟨hfix, -, -, -⟩ := unmarshalFieldNonPtr_not_handled hn
    rw [h1] at hfix
    rw [← hfix]
    simp
    omega

/-- setWithProperType (the Scalar Coercion Engine): re-attempt
custom-unmarshal dispatch (needed for slice elements, which bypass the
check in bindData), then dispatch on the declared kind exactly as the
Go switch does; the kinds not listed in the switch fall to the
"unknown type" error. -/
def setWithProperType (valueKind : Kind) (value : String) (field : GoValue) :
    Option (GoValue × Option String) :=
  match h1 : unmarshalField valueKind value field with
  | none => none
  | some (f1, true, err) => some (f1, err)
  | some (f1, false, _) =>
    match valueKind with
    | .kPtr =>
      match h2 : f1 with
      | .mk (.cPtr z (some p)) up ut =>
        match setWithProperType (kindOf p) value p with
        | none => none
        | some (p', err) => some (.mk (.cPtr z (some p')) up ut, err)
      | _ => none
    | .kInt w => setIntField value w.bits f1
    | .kUint w => setUintField value w.bits f1
    | .kBool => setBoolField value f1
    | .kFloat w => setFloatField value w.bits f1
    | .kString =>
      match f1 with
      | .mk (.cString _) up ut => some (.mk (.cString value) up ut, none)
      | _ => none
    | _ => some (f1, some "unknown type")
termination_by sizeOf field
decreasing_by
  subst h2
  exact unmarshalField_ptr_size h1

/-- The element loop of the slice branch (bindData lines 159-164):
set consecutive elements of the freshly made slice from the values;
the first element error aborts, discarding the built prefix with it.
slice.Index out of bounds would be a reflect panic: none. -/
def setSliceElems (sliceOf : Kind) (values : List String) (elems : List GoValue) :
    Option (Except String (List GoValue)) :=
  match values, elems with
  | [], es => some (.ok es)
  | _ :: _, [] => none
  | v :: vs, e :: es =>
    match setWithProperType sliceOf v e with
    | none => none
    | some (_, some err) => some (.error err)
    | some (e', none) =>
      match setSliceElems sliceOf vs es with
      | none => none
      | some (.error err) => some (.error err)
      | some (.ok es') => some (.ok (e' :: es'))

/-- Lines 148-169 of bindData, processing one matched value list:
custom-unmarshal dispatch on the first value decides the field when it
claims it; otherwise the slice branch (a fresh slice of len(values)
element zeros, each value coerced into its element, assigned only when
every element coerces) when the field's kind is Slice and a value is
present, else scalar coercion of the first value. -/
def bindFieldValue (fv : GoValue) (inputValue : List String) :
    Option (GoValue × Option String) :=
  match inputValue[0]? with
  | none => none
  | some v0 =>
    match unmarshalField (kindOf fv) v0 fv with
    | none => none
    | some (fv1, true, err) => some (fv1, err)
    | some (fv1, false, _) =>
      let numElems := inputValue.length
      if kindOf fv = .kSlice ∧ 0 < numElems then
        match fv1 with
        | .mk (.cSlice z es0) up ut =>
          match setSliceElems (kindOf z) inputValue (List.replicate numElems z) with
          | none => none
          | some (.error e) => some (.mk (.cSlice z es0) up ut, some e)
          | some (.ok es) => some (.mk (.cSlice z es) up ut, none)
        | _ => none
      else
        setWithProperType (kindOf fv) v0 fv1

/-- The map branch body (lines 98-100): write each source entry's
first value into the target map, in iteration order; indexing an empty
value list is a panic. -/
def bindMapEntries (entries : List (String × String)) (data : SourceMap) :
    Option (List (String × String)) :=
  match data with
  | [] => some entries
  | (k, vs) :: rest =>
    match vs[0]? with
    | none => none
    | some v0 => bindMapEntries (mapSet entries k v0) rest

mutual

/-- bindData (the Structural Field Binder).  A none target models the
nil interface (return nil immediately, as does an empty source map);
otherwise the value behind the target pointer is walked and updated.
The outer Option is the panic monad; the inner pair is the updated
target and the returned error. -/
def bindData (ptr : Option GoValue) (data : SourceMap) (tag : String) :
    Option (Option GoValue × Option String) :=
  match ptr with
  | none => some (none, none)
  | some v =>
    if data.isEmpty then some (some v, none)
    else
      match bindDataVal v data tag with
      | none => none
      | some (v', e) => some (some v', e)
termination_by sizeOf ptr

/-- The kind dispatch of bindData after the nil/empty guard: a map
target gets every source entry's first value written (lines 97-102),
a struct target gets the field walk, and anything else is the
"binding element must be a struct" error. -/
def bindDataVal (v : GoValue) (data : SourceMap) (tag : String) :
    Option (GoValue × Option String) :=
  match v with
  | .mk (.cMap entries) up ut =>
    match bindMapEntries entries data with
    | none => none
    | some es => some (.mk (.cMap es) up ut, none)
  | .mk (.cStruct fields) up ut =>
    match bindFields fields data tag with
    | none => none
    | some (fs, e) => some (.mk (.cStruct fs) up ut, e)
  | v => some (v, some "binding element must be a struct")
termination_by sizeOf v

/-- The field loop of bindData (lines 109-170): fields in declaration
order; the first error aborts the loop, keeping the mutations already
made to earlier fields and leaving the later fields untouched. -/
def bindFields (fields : List GoField) (data : SourceMap) (tag : String) :
    Option (List GoField × Option String) :=
  match fields with
  | [] => some ([], none)
  | f :: rest =>
    match bindOneField f data tag with
    | none => none
    | some (f', some e) => some (f' :: rest, some e)
    | some (f', none) =>
      match bindFields rest data tag with
      | none => none
      | some (rest', e) => some (f' :: rest', e)
termination_by sizeOf fields

/-- One iteration of the field loop (lines 110-169): skip unsettable
fields; resolve the source name from the tag, falling back to the
field's own name; for an untagged field that is a struct and whose
address is not an echo.BindUnmarshaler, recurse with the same data and
tag instead of consulting any name; otherwise look the resolved name
up (exact match, then the case-insensitive retry) and process the
matched values, skipping silently when nothing matches. -/
def bindOneField (f : GoField) (data : SourceMap) (tag : String) :
    Option (GoField × Option String) :=
  match f with
  | .mk name tags settable fv =>
    if !settable then some (.mk name tags settable fv, none)
    else
      let structFieldKind := kindOf fv
      let tagName := tagGet tags tag
      let inputFieldName := if tagName = "" then name else tagName
      if tagName = "" ∧ fv.up.isNone ∧ structFieldKind = .kStruct then
        match bindData (some fv) data tag with
        | some (some fv', e) => some (.mk name tags settable fv', e)
        | _ => none
      else
        match lookupInput data inputFieldName with
        | none => some (.mk name tags settable fv, none)
        | some inputValue =>
          match bindFieldValue fv inputValue with
          | none => none
          | some (fv', e) => some (.mk name tags settable fv', e)
termination_by sizeOf f

end

/-! The Content Router (the Bind method, lines 25-87). -/

/-- echo.MIMEApplicationJSON. -/
def MIMEApplicationJSON : String := "application/json"

/-- echo.MIMEApplicationXML. -/
def MIMEApplicationXML : String := "application/xml"

/-- echo.MIMETextXML. -/
def MIMETextXML : String := "text/xml"

/-- echo.MIMEApplicationForm. -/
def MIMEApplicationForm : String := "application/x-www-form-urlencoded"

/-- echo.MIMEMultipartForm. -/
def MIMEMultipartForm : String := "multipart/form-data"

/-- The request description Bind consumes: content length, the
Content-Type header value ("" when absent), and the body bytes.  The
body buffering and restoring of lines 32-36 has no observable effect
here (the body is a value and reading it cannot fail), so it is not
modeled. -/
structure Request where
  contentLength : Int
  contentType : String
  body : String

/-- The echo.Context inputs Bind reads: the request, the parsed form
parameters (c.FormParams, which may fail), the query parameters, and
the path parameter names/values. -/
structure EchoContext where
  request : Request
  formParams : Except String SourceMap
  queryParams : SourceMap
  paramNames : List String
  paramValues : List String

/-- The error envelopes Bind returns: echo.NewHTTPError(status, msg).
The JSON/XML sub-error formatting (type mismatch vs syntax error) only
changes the message string of the 400 envelope, and is absorbed into
the message the external decoder reports. -/
inductive BindError where
  | httpError (status : Nat) (message : String)
  deriving DecidableEq

/-- echo.ErrUnsupportedMediaType (HTTP 415). -/
def ErrUnsupportedMediaType : BindError :=
  .httpError 415 "Unsupported Media Type"

/-- The external whole-body decoders (json.Unmarshal, xml.Unmarshal),
black boxes from the binder's point of view: they receive the body and
the target and either return the updated target or an error message. -/
structure Decoders where
  jsonUnmarshal : String → Option GoValue → Except String (Option GoValue)
  xmlUnmarshal : String → Option GoValue → Except String (Option GoValue)

/-- Lines 68-71: the kind of the target after stripping every pointer
indirection at the type level (the modeled target is already the
pointee of the caller's top pointer, so only the remaining cPtr layers
are stripped here, following the element-zero chain, which carries the
pointee type even when the pointer is nil). -/
def derefKind (v : GoValue) : Kind :=
  match v with
  | .mk (.cPtr z _) _ _ => derefKind z
  | v => kindOf v
termination_by sizeOf v

/-- Go map store on the modeled map[string][]string (same overwrite
semantics as mapSet). -/
def srcMapSet : SourceMap → String → List String → SourceMap
  | [], k, vs => [(k, vs)]
  | e :: es, k, vs => if e.1 = k then (k, vs) :: es else e :: srcMapSet es k vs

/-- Lines 76-81: build a one-value-per-name source map from the path
parameters, in iteration order (params[name] = the single value at the
name's index); fewer values than names would be an index panic. -/
def buildParamMap (names values : List String) (acc : SourceMap) :
    Option SourceMap :=
  match names, values with
  | [], _ => some acc
  | _ :: _, [] => none
  | n :: ns, v :: vs => buildParamMap ns vs (srcMapSet acc n [v])

/-- Lines 27-67, the body phase of Bind: with nonzero content length,
default an empty content type to JSON and dispatch on the content-type
prefix.  JSON and XML decode the whole body (decode errors become 400
envelopes), form and multipart parse the form and run the Structural
Field Binder with the form namespace, and any other content type
returns echo.ErrUnsupportedMediaType.  A some error in the result is
an early return from Bind; a none error falls through to the
query/param phase. -/
def bindBody (d : Decoders) (c : EchoContext) (i : Option GoValue) :
    Option (Option GoValue × Option BindError) :=
  if 0 < c.request.contentLength then
    let ctype :=
      if c.request.contentType = "" then MIMEApplicationJSON
      else c.request.contentType
    if MIMEApplicationJSON.data.isPrefixOf ctype.data then
      match d.jsonUnmarshal c.request.body i with
      | .error e => some (i, some (.httpError 400 e))
      | .ok i' => some (i', none)
    else if MIMEApplicationXML.data.isPrefixOf ctype.data || MIMETextXML.data.isPrefixOf ctype.data then
      match d.xmlUnmarshal c.request.body i with
      | .error e => some (i, some (.httpError 400 e))
      | .ok i' => some (i', none)
    else if MIMEApplicationForm.data.isPrefixOf ctype.data || MIMEMultipartForm.data.isPrefixOf ctype.data then
      match c.formParams with
      | .error e => some (i, some (.httpError 400 e))
      | .ok params =>
        match bindData i params "form" with
        | none => none
        | some (i', some e) => some (i', some (.httpError 400 e))
        | some (i', none) => some (i', none)
    else some (i, some ErrUnsupportedMediaType)
  else some (i, none)

/-- Lines 68-85, the query/param phase of Bind: when the target's
underlying type (pointers stripped) is a struct, run the binder over
the query parameters with the query namespace and then over the path
parameter map with the param namespace, turning the first binder error
into a 400 envelope.  reflect.TypeOf of a nil interface target yields
a nil Type whose Kind call panics: none. -/
def bindQueryAndParams (c : EchoContext) (i : Option GoValue) :
    Option (Option GoValue × Option BindError) :=
  match i with
  | none => none
  | some v =>
    if derefKind v = .kStruct then
      match bindData (some v) c.queryParams "query" with
      | none => none
      | some (i1, some e) => some (i1, some (.httpError 400 e))
      | some (i1, none) =>
        match buildParamMap c.paramNames c.paramValues [] with
        | none => none
        | some params =>
          match bindData i1 params "param" with
          | none => none
          | some (i2, some e) => some (i2, some (.httpError 400 e))
          | some (i2, none) => some (i2, none)
    else some (some v, none)

/-- Bind (lines 25-87): the body phase, then — unless it already
returned an error — the query/param phase. -/
def Bind (d : Decoders) (c : EchoContext) (i : Option GoValue) :
    Option (Option GoValue × Option BindError) :=
  match bindBody d c i with
  | none => none
  | some (i', some e) => some (i', some e)
  | some (i', none) => bindQueryAndParams c i'

/-! Supporting lemmas. -/

/-- A field with neither capability passes through unmarshalFieldNonPtr
unchanged and unhandled. -/
theorem unmarshalFieldNonPtr_no_caps {value : String} {field : GoValue}
    (hup : field.up = none) (hut : field.ut = none) :
    unmarshalFieldNonPtr value field = (field, false, none) := by
  cases field with
  | mk c up ut =>
    simp only [GoValue.up] at hup
    simp only [GoValue.ut] at hut
    subst hup
    subst hut
    rfl

/-- A field with neither capability and a non-pointer kind passes
through unmarshalField unchanged and unhandled. -/
theorem unmarshalField_no_caps {valueKind : Kind} (hk : valueKind ≠ .kPtr)
    (value : String) {field : GoValue}
    (hup : field.up = none) (hut : field.ut = none) :
    unmarshalField valueKind value field = some (field, false, none) := by
  rw [unmarshalField_nonptr_eq hk, unmarshalFieldNonPtr_no_caps hup hut]

/-- Reading back a Go map store: the stored key now maps to the stored
value, every other key is untouched. -/
theorem mapLookup_mapSet (entries : List (String × String)) (k v k' : String) :
    mapLookup (mapSet entries k v) k' =
      if k' = k then some v else mapLookup entries k' := by
  induction entries with
  | nil =>
    by_cases h : k = k'
    · subst h
      simp [mapSet, mapLookup, List.find?]
    · have h' : ¬ k' = k := fun hh => h hh.symm
      simp [mapSet, mapLookup, List.find?, h, h']
  | cons e es ih =>
    by_cases he : e.1 = k
    · by_cases h : k = k'
      · subst h
        simp [mapSet, mapLookup, List.find?, he]
      · have h' : ¬ k' = k := fun hh => h hh.symm
        have he' : ¬ e.1 = k' := by rw [he]; exact h
        simp [mapSet, mapLookup, List.find?, he, h, h', he']
    · simp only [mapSet, if_neg he]
      by_cases h2 : e.1 = k'
      · have h' : ¬ k' = k := fun hh => he (by rw [h2, hh])
        simp [mapLookup, List.find?, h2, h']
      · simp only [mapLookup, List.find?] at ih ⊢
        simp [h2, ih]

/-- bindMapEntries succeeds when every value list is non-empty, and the
resulting map holds, at every key written by the data, the first value
of the last data entry for that key (last write wins), all other keys
keeping their previous binding. -/
theorem bindMapEntries_lookup :
    ∀ (data : SourceMap) (entries : List (String × String)),
    (∀ p ∈ data, p.2 ≠ []) →
    ∃ es, bindMapEntries entries data = some es ∧
      ∀ k, mapLookup es k =
        match data.reverse.find? (fun p => p.1 = k) with
        | some p => p.2[0]?
        | none => mapLookup entries k := by
  intro data
  induction data with
  | nil =>
    intro entries _
    exact ⟨entries, rfl, fun k => rfl⟩
  | cons p rest ih =>
    intro entries hne
    obtain ⟨k0, vs0⟩ := p
    have hvs0 : vs0 ≠ [] := hne (k0, vs0) (List.mem_cons_self _ _)
    obtain ⟨v0, vs0', rfl⟩ := List.exists_cons_of_ne_nil hvs0
    have hrest : ∀ p ∈ rest, p.2 ≠ [] := fun p hp => hne p (List.mem_cons_of_mem _ hp)
    obtain ⟨es, hes, hlook⟩ := ih (mapSet entries k0 v0) hrest
    refine ⟨es, ?_, ?_⟩
    · simp [bindMapEntries, hes]
    · intro k
      rw [hlook k]
      rw [List.reverse_cons, List.find?_append]
      cases hf : rest.reverse.find? (fun p => p.1 = k) with
      | some q => simp [hf, Option.orElse]
      | none =>
        by_cases hk : k0 = k
        · subst hk
          simp [hf, Option.orElse, List.find?, mapLookup_mapSet]
        · have hk' : ¬ k = k0 := fun h => hk h.symm
          simp [hf, Option.orElse, List.find?, hk, mapLookup_mapSet, hk']

/-- One unfolding of the Scalar Coercion Engine on an unhandled
non-pointer field: it dispatches to the kind's setter (the kinds the Go
switch does not list fall to the "unknown type" error). -/
theorem setWithProperType_no_caps {valueKind : Kind} (hk : valueKind ≠ .kPtr)
    (value : String) (field : GoValue)
    (hup : field.up = none) (hut : field.ut = none) :
    setWithProperType valueKind value field =
      match valueKind with
      | .kPtr => none
      | .kInt w => setIntField value w.bits field
      | .kUint w => setUintField value w.bits field
      | .kBool => setBoolField value field
      | .kFloat w => setFloatField value w.bits field
      | .kString =>
        match field with
        | .mk (.cString _) up ut => some (.mk (.cString value) up ut, none)
        | _ => none
      | _ => some (field, some "unknown type") := by
  have h := unmarshalField_no_caps hk value hup hut
  rw [setWithProperType.eq_def]
  split
  · rename_i heq
    rw [h] at heq
    cases heq
  · rename_i f1 err heq
    rw [h] at heq
    cases heq
  · rename_i f1 err heq
    rw [h] at heq
    cases heq
    cases valueKind
    case kPtr => exact absurd rfl hk
    case kString =>
      cases field with
      | mk c up ut => cases c <;> rfl
    all_goals rfl

theorem setIntField_isSome (value : String) (bits : Nat) {w : IW} {n : Int}
    {up ut : Option (String → Except String GoCore)} :
    (setIntField value bits (.mk (.cInt w n) up ut)).isSome := by
  simp only [setIntField]
  split <;> simp

theorem setUintField_isSome (value : String) (bits : Nat) {w : IW} {n : Nat}
    {up ut : Option (String → Except String GoCore)} :
    (setUintField value bits (.mk (.cUint w n) up ut)).isSome := by
  simp only [setUintField]
  split <;> simp

theorem setBoolField_isSome (value : String) {b : Bool}
    {up ut : Option (String → Except String GoCore)} :
    (setBoolField value (.mk (.cBool b) up ut)).isSome := by
  simp only [setBoolField]
  split <;> simp

theorem setFloatField_isSome (value : String) (bits : Nat) {w : FW} {q : Rat}
    {up ut : Option (String → Except String GoCore)} :
    (setFloatField value bits (.mk (.cFloat w q) up ut)).isSome := by
  simp only [setFloatField]
  split <;> simp

/-- Custom-unmarshal dispatch never panics when handed the kind
reflect reports for the value itself. -/
theorem unmarshalField_kindOf_isSome (value : String) (f : GoValue) :
    (unmarshalField (kindOf f) value f).isSome := by
  cases f with
  | mk c up ut =>
    cases c with
    | cPtr z inner =>
      simp only [kindOf, GoValue.core, kindOfCore, unmarshalField, unmarshalFieldPtr]
      rcases unmarshalFieldNonPtr value (inner.getD z) with ⟨a, b, e⟩
      simp
    | cInt w n => simp [kindOf, GoValue.core, kindOfCore, unmarshalField]
    | cUint w n => simp [kindOf, GoValue.core, kindOfCore, unmarshalField]
    | cBool b => simp [kindOf, GoValue.core, kindOfCore, unmarshalField]
    | cFloat w q => simp [kindOf, GoValue.core, kindOfCore, unmarshalField]
    | cString s => simp [kindOf, GoValue.core, kindOfCore, unmarshalField]
    | cStruct fs => simp [kindOf, GoValue.core, kindOfCore, unmarshalField]
    | cSlice z es => simp [kindOf, GoValue.core, kindOfCore, unmarshalField]
    | cMap es => simp [kindOf, GoValue.core, kindOfCore, unmarshalField]
    | cOther => simp [kindOf, GoValue.core, kindOfCore, unmarshalField]

/-- The Scalar Coercion Engine never panics when invoked coherently,
with the kind reflect reports for the value itself (it can return
errors, but every reflect access it makes is in bounds). -/
theorem setWithProperType_total :
    ∀ (N : Nat) (f : GoValue) (value : String), sizeOf f ≤ N →
      (setWithProperType (kindOf f) value f).isSome := by
  intro N
  induction N with
  | zero =>
    intro f value hle
    cases f with
    | mk c up ut => simp at hle
  | succ N ih =>
    intro f value hle
    rw [setWithProperType.eq_def]
    split
    · rename_i heq
      have h2 := unmarshalField_kindOf_isSome value f
      rw [heq] at h2
      cases h2
    · simp
    · rename_i f1 err heq
      cases f with
      | mk c up ut =>
        cases c with
        | cPtr z inner =>
          simp only [kindOf, GoValue.core, kindOfCore] at heq ⊢
          simp only [unmarshalField, unmarshalFieldPtr] at heq
          rcases hp : unmarshalFieldNonPtr value (inner.getD z) with ⟨p', handled, err'⟩
          rw [hp] at heq
          simp only [Option.some.injEq, Prod.mk.injEq] at heq
          obtain ⟨hf1, hh, he⟩ := heq
          obtain ⟨hpfix, -, -, -⟩ := unmarshalFieldNonPtr_not_handled (hh ▸ hp)
          have hsz : sizeOf p' ≤ N := by
            rw [hpfix]
            cases inner with
            | none =>
              simp at hle ⊢
              omega
            | some q =>
              simp at hle ⊢
              omega
          have hrec := ih p' value hsz
          subst hf1
          show (match setWithProperType (kindOf p') value p' with
              | none => (none : Option (GoValue × Option String))
              | some (p2, err2) =>
                some (GoValue.mk (GoCore.cPtr z (some p2)) up ut, err2)).isSome = true
          cases hrecv : setWithProperType (kindOf p') value p' with
          | none => rw [hrecv] at hrec; cases hrec
          | some r =>
            obtain ⟨p2, err2⟩ := r
            simp
        | cInt w n =>
          have hk : (Kind.kInt w) ≠ Kind.kPtr := by simp
          simp only [kindOf, GoValue.core, kindOfCore] at heq ⊢
          rw [unmarshalField_nonptr_eq hk] at heq
          simp only [Option.some.injEq] at heq
          obtain ⟨hfix, -, -, -⟩ := unmarshalFieldNonPtr_not_handled heq
          subst hfix
          exact setIntField_isSome value w.bits
        | cUint w n =>
          have hk : (Kind.kUint w) ≠ Kind.kPtr := by simp
          simp only [kindOf, GoValue.core, kindOfCore] at heq ⊢
          rw [unmarshalField_nonptr_eq hk] at heq
          simp only [Option.some.injEq] at heq
          obtain ⟨hfix, -, -, -⟩ := unmarshalFieldNonPtr_not_handled heq
          subst hfix
          exact setUintField_isSome value w.bits
        | cBool b =>
          have hk : Kind.kBool ≠ Kind.kPtr := by simp
          simp only [kindOf, GoValue.core, kindOfCore] at heq ⊢
          rw [unmarshalField_nonptr_eq hk] at heq
          simp only [Option.some.injEq] at heq
          obtain ⟨hfix, -, -, -⟩ := unmarshalFieldNonPtr_not_handled heq
          subst hfix
          exact setBoolField_isSome value
        | cFloat w q =>
          have hk : (Kind.kFloat w) ≠ Kind.kPtr := by simp
          simp only [kindOf, GoValue.core, kindOfCore] at heq ⊢
          rw [unmarshalField_nonptr_eq hk] at heq
          simp only [Option.some.injEq] at heq
          obtain ⟨hfix, -, -, -⟩ := unmarshalFieldNonPtr_not_handled heq
          subst hfix
          exact setFloatField_isSome value w.bits
        | cString s =>
          have hk : Kind.kString ≠ Kind.kPtr := by simp
          simp only [kindOf, GoValue.core, kindOfCore] at heq ⊢
          rw [unmarshalField_nonptr_eq hk] at heq
          simp only [Option.some.injEq] at heq
          obtain ⟨hfix, -, -, -⟩ := unmarshalFieldNonPtr_not_handled heq
          subst hfix
          simp
        | cStruct fs =>
          simp only [kindOf, GoValue.core, kindOfCore]
          simp
        | cSlice z es =>
          simp only [kindOf, GoValue.core, kindOfCore]
          simp
        | cMap es =>
          simp only [kindOf, GoValue.core, kindOfCore]
          simp
        | cOther =>
          simp only [kindOf, GoValue.core, kindOfCore]
          simp

/-- The slice element loop never panics on the inputs bindData gives it
(a fresh slice with exactly one zero element per value). -/
theorem setSliceElems_total (z : GoValue) :
    ∀ vs : List String,
      (setSliceElems (kindOf z) vs (List.replicate vs.length z)).isSome := by
  intro vs
  induction vs with
  | nil => simp [setSliceElems]
  | cons v vs ih =>
    simp only [List.length_cons, List.replicate_succ, setSliceElems]
    have h := setWithProperType_total (sizeOf z) z v le_rfl
    cases hv : setWithProperType (kindOf z) v z with
    | none => rw [hv] at h; cases h
    | some r =>
      obtain ⟨e', err⟩ := r
      cases err with
      | some e => simp
      | none =>
        cases hrec : setSliceElems (kindOf z) vs (List.replicate vs.length z) with
        | none => rw [hrec] at ih; cases ih
        | some r2 => cases r2 <;> simp

/-- When every value coerces into the element zero without error, the
element loop returns exactly the coerced elements, in order. -/
theorem setSliceElems_ok {k : Kind} {z : GoValue} :
    ∀ {vs : List String} {es : List GoValue},
    List.Forall₂ (fun v e => setWithProperType k v z = some (e, none)) vs es →
    setSliceElems k vs (List.replicate vs.length z) = some (.ok es) := by
  intro vs es h
  induction h with
  | nil => rfl
  | cons hve hrest ih =>
    simp only [List.length_cons, List.replicate_succ, setSliceElems, hve, ih]

/-- The first failing element aborts the element loop with exactly that
element's error. -/
theorem setSliceElems_error {k : Kind} {z : GoValue} {v : String}
    {z' : GoValue} {e : String}
    (hbad : setWithProperType k v z = some (z', some e)) :
    ∀ {vs1 : List String} {es1 : List GoValue} (vs2 : List String),
    List.Forall₂ (fun a b => setWithProperType k a z = some (b, none)) vs1 es1 →
    setSliceElems k (vs1 ++ v :: vs2) (List.replicate (vs1 ++ v :: vs2).length z) =
      some (.error e) := by
  intro vs1 es1 vs2 h
  induction h with
  | nil => simp [setSliceElems, List.replicate_succ, hbad]
  | cons hve hrest ih =>
    simp only [List.cons_append, List.length_cons, List.replicate_succ,
      setSliceElems, hve, List.append_eq, ih]

/-- Pointer dispatch keeps the pointer kind of the field. -/
theorem unmarshalFieldPtr_kind {value : String} {f f1 : GoValue} {hd : Bool}
    {e : Option String} (hu : unmarshalFieldPtr value f = some (f1, hd, e)) :
    kindOf f1 = .kPtr := by
  cases f with
  | mk c up ut =>
    cases c with
    | cPtr z inner =>
      simp only [unmarshalFieldPtr] at hu
      rcases hp : unmarshalFieldNonPtr value (inner.getD z) with ⟨p', hh, ee⟩
      rw [hp] at hu
      simp only [Option.some.injEq, Prod.mk.injEq] at hu
      obtain ⟨h1, -, -⟩ := hu
      rw [← h1]
      rfl
    | cInt w n => simp [unmarshalFieldPtr] at hu
    | cUint w n => simp [unmarshalFieldPtr] at hu
    | cBool b => simp [unmarshalFieldPtr] at hu
    | cFloat w q => simp [unmarshalFieldPtr] at hu
    | cString s => simp [unmarshalFieldPtr] at hu
    | cStruct fs => simp [unmarshalFieldPtr] at hu
    | cSlice z es => simp [unmarshalFieldPtr] at hu
    | cMap es => simp [unmarshalFieldPtr] at hu
    | cOther => simp [unmarshalFieldPtr] at hu

/-- Processing a non-empty matched value list never panics. -/
theorem bindFieldValue_total (fv : GoValue) (vs : List String) (hne : vs ≠ []) :
    (bindFieldValue fv vs).isSome := by
  obtain ⟨v0, rest, rfl⟩ := List.exists_cons_of_ne_nil hne
  have hu := unmarshalField_kindOf_isSome v0 fv
  cases hum : unmarshalField (kindOf fv) v0 fv with
  | none => rw [hum] at hu; cases hu
  | some r =>
    obtain ⟨fv1, handled, err⟩ := r
    cases handled with
    | true => simp [bindFieldValue, hum]
    | false =>
      by_cases hsl : kindOf fv = Kind.kSlice
      · have hk2 : kindOf fv ≠ Kind.kPtr := by rw [hsl]; simp
        rw [unmarshalField_nonptr_eq hk2] at hum
        simp only [Option.some.injEq] at hum
        obtain ⟨hfix, -, hup, hut⟩ := unmarshalFieldNonPtr_not_handled hum
        have hum2 := unmarshalField_no_caps hk2 v0 hup hut
        cases fv with
        | mk c up ut =>
          cases c with
          | cSlice z es0 =>
            have hst := setSliceElems_total z (v0 :: rest)
            have hcond : kindOf (GoValue.mk (GoCore.cSlice z es0) up ut) = Kind.kSlice ∧
                0 < (v0 :: rest).length := ⟨rfl, by simp⟩
            simp only [bindFieldValue, List.getElem?_cons_zero, hum2, if_pos hcond]
            cases hse : setSliceElems (kindOf z) (v0 :: rest)
                (List.replicate (v0 :: rest).length z) with
            | none =>
              rw [hse] at hst
              cases hst
            | some r2 =>
              cases r2 with
              | error e2 => simp
              | ok es2 => simp
          | cInt w n => simp [kindOf, GoValue.core, kindOfCore] at hsl
          | cUint w n => simp [kindOf, GoValue.core, kindOfCore] at hsl
          | cBool b => simp [kindOf, GoValue.core, kindOfCore] at hsl
          | cFloat w q => simp [kindOf, GoValue.core, kindOfCore] at hsl
          | cString s => simp [kindOf, GoValue.core, kindOfCore] at hsl
          | cPtr z inner => simp [kindOf, GoValue.core, kindOfCore] at hsl
          | cStruct fs => simp [kindOf, GoValue.core, kindOfCore] at hsl
          | cMap es => simp [kindOf, GoValue.core, kindOfCore] at hsl
          | cOther => simp [kindOf, GoValue.core, kindOfCore] at hsl
      · have hcond : ¬(kindOf fv = Kind.kSlice ∧ 0 < (v0 :: rest).length) :=
          fun hc => hsl hc.1
        by_cases hp : kindOf fv = Kind.kPtr
        · have hkp : kindOf fv1 = Kind.kPtr := by
            rw [hp] at hum
            exact unmarshalFieldPtr_kind hum
          have ht := setWithProperType_total (sizeOf fv1) fv1 v0 le_rfl
          rw [hkp, ← hp] at ht
          simp only [bindFieldValue, List.getElem?_cons_zero, hum, if_neg hcond]
          exact ht
        · rw [unmarshalField_nonptr_eq hp] at hum
          simp only [Option.some.injEq] at hum
          obtain ⟨hfix, -, hup, hut⟩ := unmarshalFieldNonPtr_not_handled hum
          have hum2 := unmarshalField_no_caps hp v0 hup hut
          have ht := setWithProperType_total (sizeOf fv) fv v0 le_rfl
          simp only [bindFieldValue, List.getElem?_cons_zero, hum2, if_neg hcond]
          exact ht

/-- The precondition of the Source Value Map data model: every key
holds one or more string values. -/
abbrev ValuesNonempty (data : SourceMap) : Prop :=
  ∀ p ∈ data, p.2 ≠ []

/-- A value list returned by the binder's lookup is one of the source
map's value lists. -/
theorem lookupInput_mem {data : SourceMap} {name : String} {vs : List String}
    (h : lookupInput data name = some vs) : ∃ k, (k, vs) ∈ data := by
  unfold lookupInput at h
  cases he : lookupExact data name with
  | some v =>
    rw [he] at h
    cases h
    unfold lookupExact at he
    obtain ⟨kv, hf, h2⟩ := Option.map_eq_some'.1 he
    refine ⟨kv.1, ?_⟩
    have hm := List.mem_of_find?_eq_some hf
    rwa [show (kv.1, vs) = kv from by rw [← h2]]
  | none =>
    rw [he] at h
    unfold lookupFold at h
    obtain ⟨kv, hf, h2⟩ := Option.map_eq_some'.1 h
    refine ⟨kv.1, ?_⟩
    have hm := List.mem_of_find?_eq_some hf
    rwa [show (kv.1, vs) = kv from by rw [← h2]]

/-- The map branch never panics when every value list is non-empty. -/
theorem bindMapEntries_total :
    ∀ (data : SourceMap) (entries : List (String × String)),
      ValuesNonempty data → (bindMapEntries entries data).isSome := by
  intro data
  induction data with
  | nil =>
    intro entries _
    simp [bindMapEntries]
  | cons p rest ih =>
    intro entries h
    obtain ⟨k, vs⟩ := p
    have hvs : vs ≠ [] := h (k, vs) (List.mem_cons_self _ _)
    obtain ⟨v0, vs', rfl⟩ := List.exists_cons_of_ne_nil hvs
    simp only [bindMapEntries, List.getElem?_cons_zero]
    exact ih _ (fun q hq => h q (List.mem_cons_of_mem _ hq))

/-- bindData on a non-nil target always hands back a non-nil target. -/
theorem bindData_some_shape {v : GoValue} {data : SourceMap} {tag : String}
    {r : Option GoValue × Option String}
    (h : bindData (some v) data tag = some r) : ∃ v' e, r = (some v', e) := by
  rw [bindData.eq_def] at h
  simp only at h
  by_cases hd : data.isEmpty
  · rw [if_pos hd] at h
    cases h
    exact ⟨v, none, rfl⟩
  · rw [if_neg hd] at h
    cases hb : bindDataVal v data tag with
    | none => rw [hb] at h; cases h
    | some r2 =>
      rw [hb] at h
      obtain ⟨v', e⟩ := r2
      cases h
      exact ⟨v', e, rfl⟩

/-- The joint no-panic induction for the Structural Field Binder: under
the Source Value Map precondition, every first-element access made by
the field walk is in bounds. -/
theorem bind_total_aux :
    ∀ N : Nat,
      (∀ (f : GoField) (data : SourceMap) (tag : String), sizeOf f ≤ N →
        ValuesNonempty data → (bindOneField f data tag).isSome) ∧
      (∀ (fs : List GoField) (data : SourceMap) (tag : String), sizeOf fs ≤ N →
        ValuesNonempty data → (bindFields fs data tag).isSome) ∧
      (∀ (v : GoValue) (data : SourceMap) (tag : String), sizeOf v ≤ N →
        ValuesNonempty data → (bindDataVal v data tag).isSome) ∧
      (∀ (ptr : Option GoValue) (data : SourceMap) (tag : String), sizeOf ptr ≤ N →
        ValuesNonempty data → (bindData ptr data tag).isSome) := by
  intro N
  induction N with
  | zero =>
    refine ⟨?_, ?_, ?_, ?_⟩
    · intro f data tag hle
      exact absurd hle (by cases f <;> simp)
    · intro fs data tag hle
      exact absurd hle (by cases fs <;> simp)
    · intro v data tag hle
      exact absurd hle (by cases v <;> simp)
    · intro ptr data tag hle
      exact absurd hle (by cases ptr <;> simp)
  | succ N ih =>
    obtain ⟨ihF, ihFs, ihV, ihD⟩ := ih
    refine ⟨?_, ?_, ?_, ?_⟩
    · -- bindOneField
      intro f data tag hle hvv
      obtain ⟨name, tags, settable, fv⟩ := f
      rw [bindOneField.eq_def]
      simp only
      cases settable with
      | false => simp
      | true =>
        simp only [Bool.not_true, Bool.false_eq_true, if_false]
        by_cases hcond : tagGet tags tag = "" ∧ fv.up.isNone = true ∧ kindOf fv = Kind.kStruct
        · rw [if_pos hcond]
          have hszp : sizeOf (some fv : Option GoValue) ≤ N := by
            simp at hle ⊢
            omega
          have hd := ihD (some fv) data tag hszp hvv
          cases hb : bindData (some fv) data tag with
          | none => rw [hb] at hd; cases hd
          | some r =>
            obtain ⟨v', e, rfl⟩ := bindData_some_shape hb
            simp [hb]
        · rw [if_neg hcond]
          cases hl : lookupInput data (if tagGet tags tag = "" then name else tagGet tags tag) with
          | none => simp
          | some vs =>
            obtain ⟨k, hk⟩ := lookupInput_mem hl
            have hne : vs ≠ [] := hvv (k, vs) hk
            have hb := bindFieldValue_total fv vs hne
            cases hbv : bindFieldValue fv vs with
            | none => rw [hbv] at hb; cases hb
            | some r =>
              obtain ⟨fv', e⟩ := r
              simp [hbv]
    · -- bindFields
      intro fs data tag hle hvv
      cases fs with
      | nil => simp [bindFields]
      | cons f rest =>
        rw [bindFields.eq_def]
        simp only
        have hszf : sizeOf f ≤ N := by
          simp at hle
          omega
        have hszr : sizeOf rest ≤ N := by
          simp at hle
          omega
        have h1 := ihF f data tag hszf hvv
        cases hb1 : bindOneField f data tag with
        | none => rw [hb1] at h1; cases h1
        | some r =>
          obtain ⟨f', e⟩ := r
          cases e with
          | some e0 => simp [hb1]
          | none =>
            have h2 := ihFs rest data tag hszr hvv
            cases hb2 : bindFields rest data tag with
            | none => rw [hb2] at h2; cases h2
            | some r2 =>
              obtain ⟨rest', e2⟩ := r2
              simp [hb1, hb2]
    · -- bindDataVal
      intro v data tag hle hvv
      obtain ⟨c, up, ut⟩ := v
      cases c with
      | cMap entries =>
        have hm := bindMapEntries_total data entries hvv
        rw [bindDataVal.eq_def]
        simp only
        cases hb : bindMapEntries entries data with
        | none => rw [hb] at hm; cases hm
        | some es => simp [hb]
      | cStruct fields =>
        have hszf : sizeOf fields ≤ N := by
          simp at hle
          omega
        have hf := ihFs fields data tag hszf hvv
        rw [bindDataVal.eq_def]
        simp only
        cases hb : bindFields fields data tag with
        | none => rw [hb] at hf; cases hf
        | some r =>
          obtain ⟨fs', e⟩ := r
          simp [hb]
      | cInt w n => rw [bindDataVal.eq_def]; simp
      | cUint w n => rw [bindDataVal.eq_def]; simp
      | cBool b => rw [bindDataVal.eq_def]; simp
      | cFloat w q => rw [bindDataVal.eq_def]; simp
      | cString s => rw [bindDataVal.eq_def]; simp
      | cPtr z inner => rw [bindDataVal.eq_def]; simp
      | cSlice z es => rw [bindDataVal.eq_def]; simp
      | cOther => rw [bindDataVal.eq_def]; simp
    · -- bindData
      intro ptr data tag hle hvv
      cases ptr with
      | none => rw [bindData.eq_def]; simp
      | some v =>
        rw [bindData.eq_def]
        simp only
        by_cases hd : data.isEmpty
        · rw [if_pos hd]
          simp
        · rw [if_neg hd]
          have hszv : sizeOf v ≤ N := by
            simp at hle
            omega
          have hv := ihV v data tag hszv hvv
          cases hb : bindDataVal v data tag with
          | none => rw [hb] at hv; cases hv
          | some r =>
            obtain ⟨v', e⟩ := r
            simp [hb]

/-- Under the Source Value Map precondition the Structural Field Binder
never panics. -/
theorem bindData_total (ptr : Option GoValue) (data : SourceMap) (tag : String)
    (h : ValuesNonempty data) : (bindData ptr data tag).isSome :=
  (bind_total_aux (sizeOf ptr)).2.2.2 ptr data tag le_rfl h

/-- Processing of a matched value list for an unclaimed non-slice
non-pointer field is scalar coercion of the first value. -/
theorem bindFieldValue_scalar {fv : GoValue} (hup : fv.up = none)
    (hut : fv.ut = none) (hns : kindOf fv ≠ Kind.kSlice)
    (hnp : kindOf fv ≠ Kind.kPtr) (v0 : String) (rest : List String) :
    bindFieldValue fv (v0 :: rest) = setWithProperType (kindOf fv) v0 fv := by
  have hum := unmarshalField_no_caps hnp v0 hup hut
  have hcond : ¬(kindOf fv = Kind.kSlice ∧ 0 < (v0 :: rest).length) :=
    fun hc => hns hc.1
  simp only [bindFieldValue, List.getElem?_cons_zero, hum, if_neg hcond]

/-- Processing of a non-empty matched value list for an unclaimed slice
field is the element loop over a fresh slice of one zero element per
value; its success replaces the field's elements, its failure leaves
them. -/
theorem bindFieldValue_slice (z : GoValue) (es0 : List GoValue)
    (vs : List String) (hne : vs ≠ []) :
    bindFieldValue (.mk (.cSlice z es0) none none) vs =
      match setSliceElems (kindOf z) vs (List.replicate vs.length z) with
      | none => none
      | some (.error e) => some (.mk (.cSlice z es0) none none, some e)
      | some (.ok es) => some (.mk (.cSlice z es) none none, none) := by
  obtain ⟨v0, rest, rfl⟩ := List.exists_cons_of_ne_nil hne
  have hnp : kindOf (GoValue.mk (.cSlice z es0) none none) ≠ Kind.kPtr := by
    simp [kindOf, GoValue.core, kindOfCore]
  have hum := unmarshalField_no_caps hnp v0
    (rfl : (GoValue.mk (.cSlice z es0) none none).up = none)
    (rfl : (GoValue.mk (.cSlice z es0) none none).ut = none)
  have hcond : kindOf (GoValue.mk (GoCore.cSlice z es0) none none) = Kind.kSlice ∧
      0 < (v0 :: rest).length := ⟨rfl, by simp⟩
  simp only [bindFieldValue, List.getElem?_cons_zero, hum, if_pos hcond]

/-- C4: coercing the empty string into a capability-free field succeeds
with the zero value: 0 for every signed and unsigned integer width,
false for booleans, 0.0 for every floating point width. -/
theorem claim4_empty_string_zero_values :
    (∀ (w : IW) (n : Int),
      setWithProperType (kindOf (GoValue.mk (.cInt w n) none none)) ""
        (GoValue.mk (.cInt w n) none none) =
        some (GoValue.mk (.cInt w 0) none none, none)) ∧
    (∀ (w : IW) (n : Nat),
      setWithProperType (kindOf (GoValue.mk (.cUint w n) none none)) ""
        (GoValue.mk (.cUint w n) none none) =
        some (GoValue.mk (.cUint w 0) none none, none)) ∧
    (∀ b : Bool,
      setWithProperType (kindOf (GoValue.mk (.cBool b) none none)) ""
        (GoValue.mk (.cBool b) none none) =
        some (GoValue.mk (.cBool false) none none, none)) ∧
    (∀ (w : FW) (q : Rat),
      setWithProperType (kindOf (GoValue.mk (.cFloat w q) none none)) ""
        (GoValue.mk (.cFloat w q) none none) =
        some (GoValue.mk (.cFloat w 0) none none, none)) := by
  refine ⟨?_, ?_, ?_, ?_⟩
  · intro w n
    show setWithProperType (Kind.kInt w) "" (GoValue.mk (.cInt w n) none none) =
      some (GoValue.mk (.cInt w 0) none none, none)
    rw [setWithProperType_no_caps (by simp) "" (GoValue.mk (.cInt w n) none none) rfl rfl]
    show setIntField "" w.bits (GoValue.mk (.cInt w n) none none) = _
    cases w <;>
      simp [setIntField, ParseInt, effBits, digitsToNat?, digitsVal, truncInt,
        IW.bits, numError]
  · intro w n
    show setWithProperType (Kind.kUint w) "" (GoValue.mk (.cUint w n) none none) =
      some (GoValue.mk (.cUint w 0) none none, none)
    rw [setWithProperType_no_caps (by simp) "" (GoValue.mk (.cUint w n) none none) rfl rfl]
    show setUintField "" w.bits (GoValue.mk (.cUint w n) none none) = _
    cases w <;>
      simp [setUintField, ParseUint, effBits, digitsToNat?, digitsVal, truncUint,
        IW.bits, numError]
  · intro b
    show setWithProperType Kind.kBool "" (GoValue.mk (.cBool b) none none) =
      some (GoValue.mk (.cBool false) none none, none)
    rw [setWithProperType_no_caps (by simp) "" (GoValue.mk (.cBool b) none none) rfl rfl]
    show setBoolField "" (GoValue.mk (.cBool b) none none) = _
    simp [setBoolField, ParseBool, numError]
  · intro w q
    show setWithProperType (Kind.kFloat w) "" (GoValue.mk (.cFloat w q) none none) =
      some (GoValue.mk (.cFloat w 0) none none, none)
    rw [setWithProperType_no_caps (by simp) "" (GoValue.mk (.cFloat w q) none none) rfl rfl]
    show setFloatField "" w.bits (GoValue.mk (.cFloat w q) none none) = _
    cases w <;>
      simp [setFloatField, ParseFloat, parseFloatCore, digitsVal, FW.bits, numError]

/-- C10: a settable struct-kind field carrying a non-empty tag for the
active namespace, without custom-unmarshal capability, whose resolved
name matches the source map, is not recursed into; generic scalar
coercion runs on the struct kind and fails with "unknown type",
leaving the field unchanged. -/
theorem claim10_tagged_struct_unknown_type
    (name : String) (tags : List (String × String)) (fv : GoValue)
    (data : SourceMap) (tag : String)
    (htag : tagGet tags tag ≠ "")
    (hup : fv.up = none) (hut : fv.ut = none)
    (hk : kindOf fv = Kind.kStruct)
    (v0 : String) (rest : List String)
    (hl : lookupInput data (tagGet tags tag) = some (v0 :: rest)) :
    bindOneField (.mk name tags true fv) data tag =
      some (.mk name tags true fv, some "unknown type") := by
  have hns : kindOf fv ≠ Kind.kSlice := by rw [hk]; simp
  have hnp : kindOf fv ≠ Kind.kPtr := by rw [hk]; simp
  have hbf : bindFieldValue fv (v0 :: rest) = some (fv, some "unknown type") := by
    rw [bindFieldValue_scalar hup hut hns hnp]
    rw [setWithProperType_no_caps hnp v0 fv hup hut]
    cases fv with
    | mk c up' ut' =>
      cases c
      case cStruct fs => rfl
      all_goals simp [kindOf, GoValue.core, kindOfCore] at hk
  rw [bindOneField.eq_def]
  simp only
  simp only [Bool.not_true, Bool.false_eq_true, if_false]
  have hcond : ¬(tagGet tags tag = "" ∧ fv.up.isNone = true ∧ kindOf fv = Kind.kStruct) :=
    fun hc => htag hc.1
  rw [if_neg hcond, if_neg htag, hl]
  simp [hbf]

/-- C5: a matched field whose type exposes the UnmarshalParam
capability has that capability invoked on the first matched value and
its outcome alone decides the binding — generic scalar coercion never
runs, whatever the field's underlying kind; when only UnmarshalText is
present it is invoked instead (with the value's bytes, which the model
identifies with the string, Go strings being their bytes);
UnmarshalParam takes priority since the UnmarshalText conjuncts
require its absence.  For a pointer-kind field the dispatch (lines
238-244) first ensures a pointee exists — allocating the element zero
when the pointer is nil — and the capabilities consulted are the
pointee's: the pointee's capability result alone decides the binding,
the pointer now holding the (possibly mutated) pointee. -/
theorem claim5_custom_unmarshal_dispatch (fv : GoValue) (v0 : String)
    (rest : List String) :
    (kindOf fv ≠ Kind.kPtr →
      (∀ u, fv.up = some u →
        bindFieldValue fv (v0 :: rest) =
          match u v0 with
          | .ok c => some (.mk c fv.up fv.ut, none)
          | .error e => some (fv, some e)) ∧
      (fv.up = none → ∀ u, fv.ut = some u →
        bindFieldValue fv (v0 :: rest) =
          match u v0 with
          | .ok c => some (.mk c fv.up fv.ut, none)
          | .error e => some (fv, some e))) ∧
    (∀ z inner up ut, fv = .mk (.cPtr z inner) up ut →
      (∀ u, (inner.getD z).up = some u →
        bindFieldValue fv (v0 :: rest) =
          match u v0 with
          | .ok c => some (.mk (.cPtr z (some (.mk c (inner.getD z).up
              (inner.getD z).ut))) up ut, none)
          | .error e =>
            some (.mk (.cPtr z (some (inner.getD z))) up ut, some e)) ∧
      ((inner.getD z).up = none → ∀ u, (inner.getD z).ut = some u →
        bindFieldValue fv (v0 :: rest) =
          match u v0 with
          | .ok c => some (.mk (.cPtr z (some (.mk c (inner.getD z).up
              (inner.getD z).ut))) up ut, none)
          | .error e =>
            some (.mk (.cPtr z (some (inner.getD z))) up ut, some e))) := by
  constructor
  · intro hk
    obtain ⟨c0, up, ut⟩ := fv
    constructor
    · intro u hu
      simp only [GoValue.up] at hu
      subst hu
      cases hv : u v0 with
      | ok c =>
        simp [bindFieldValue, unmarshalField_nonptr_eq hk, unmarshalFieldNonPtr,
          hv, GoValue.up, GoValue.ut]
      | error e =>
        simp [bindFieldValue, unmarshalField_nonptr_eq hk, unmarshalFieldNonPtr,
          hv, GoValue.up, GoValue.ut]
    · intro hu u hut
      simp only [GoValue.up] at hu
      simp only [GoValue.ut] at hut
      subst hu
      subst hut
      cases hv : u v0 with
      | ok c =>
        simp [bindFieldValue, unmarshalField_nonptr_eq hk, unmarshalFieldNonPtr,
          hv, GoValue.up, GoValue.ut]
      | error e =>
        simp [bindFieldValue, unmarshalField_nonptr_eq hk, unmarshalFieldNonPtr,
          hv, GoValue.up, GoValue.ut]
  · intro z inner up ut hfv
    subst hfv
    rcases hp : inner.getD z with ⟨pc, pup, put⟩
    constructor
    · intro u hu
      simp only [GoValue.up] at hu
      subst hu
      cases hv : u v0 with
      | ok c =>
        simp [bindFieldValue, kindOf, GoValue.core, kindOfCore, unmarshalField,
          unmarshalFieldPtr, hp, unmarshalFieldNonPtr, hv, GoValue.up, GoValue.ut]
      | error e =>
        simp [bindFieldValue, kindOf, GoValue.core, kindOfCore, unmarshalField,
          unmarshalFieldPtr, hp, unmarshalFieldNonPtr, hv, GoValue.up, GoValue.ut]
    · intro hu u hut
      simp only [GoValue.up] at hu
      simp only [GoValue.ut] at hut
      subst hu
      subst hut
      cases hv : u v0 with
      | ok c =>
        simp [bindFieldValue, kindOf, GoValue.core, kindOfCore, unmarshalField,
          unmarshalFieldPtr, hp, unmarshalFieldNonPtr, hv, GoValue.up, GoValue.ut]
      | error e =>
        simp [bindFieldValue, kindOf, GoValue.core, kindOfCore, unmarshalField,
          unmarshalFieldPtr, hp, unmarshalFieldNonPtr, hv, GoValue.up, GoValue.ut]

/-- C6: an untagged settable struct-kind field whose address is not a
BindUnmarshaler is recursed into with the same source map and
namespace, the recursion's outcome replacing the field and deciding the
error; the field's own name is never consulted — the equation holds
uniformly in the name, whatever the source map holds under it. -/
theorem claim6_untagged_struct_recursion (name : String)
    (tags : List (String × String)) (fv : GoValue) (data : SourceMap)
    (tag : String) (htag : tagGet tags tag = "")
    (hup : fv.up = none) (hut : fv.ut = none)
    (hk : kindOf fv = Kind.kStruct) :
    bindOneField (.mk name tags true fv) data tag =
      match bindData (some fv) data tag with
      | some (some fv', e) => some (.mk name tags true fv', e)
      | _ => none := by
  rw [bindOneField.eq_def]
  simp only
  simp only [Bool.not_true, Bool.false_eq_true, if_false]
  have hcond : tagGet tags tag = "" ∧ fv.up.isNone = true ∧ kindOf fv = Kind.kStruct :=
    ⟨htag, by simp [hup], hk⟩
  rw [if_pos hcond]

/-- C3: a settable field that undergoes name resolution (every case
except the untagged nested-record recursion, which the spec explicitly
excepts from name resolution) has its resolved source name looked up
exactly first; on failure the case-insensitive scan is the fallback;
when both fail the field is skipped with no error. -/
theorem claim3_lookup_exact_then_fold (name : String)
    (tags : List (String × String)) (fv : GoValue) (data : SourceMap)
    (tag : String)
    (hnr : ¬(tagGet tags tag = "" ∧ fv.up.isNone = true ∧
      kindOf fv = Kind.kStruct)) :
    (∀ vs, lookupExact data (if tagGet tags tag = "" then name
        else tagGet tags tag) = some vs →
      bindOneField (.mk name tags true fv) data tag =
        match bindFieldValue fv vs with
        | none => none
        | some (fv', e) => some (.mk name tags true fv', e)) ∧
    (lookupExact data (if tagGet tags tag = "" then name
        else tagGet tags tag) = none →
     ∀ vs, lookupFold data (if tagGet tags tag = "" then name
        else tagGet tags tag) = some vs →
      bindOneField (.mk name tags true fv) data tag =
        match bindFieldValue fv vs with
        | none => none
        | some (fv', e) => some (.mk name tags true fv', e)) ∧
    (lookupExact data (if tagGet tags tag = "" then name
        else tagGet tags tag) = none →
     lookupFold data (if tagGet tags tag = "" then name
        else tagGet tags tag) = none →
      bindOneField (.mk name tags true fv) data tag =
        some (.mk name tags true fv, none)) := by
  have hstep : bindOneField (.mk name tags true fv) data tag =
      match lookupInput data (if tagGet tags tag = "" then name
          else tagGet tags tag) with
      | none => some (.mk name tags true fv, none)
      | some vs =>
        match bindFieldValue fv vs with
        | none => none
        | some (fv', e) => some (.mk name tags true fv', e) := by
    rw [bindOneField.eq_def]
    simp only
    simp only [Bool.not_true, Bool.false_eq_true, if_false]
    rw [if_neg hnr]
  refine ⟨?_, ?_, ?_⟩
  · intro vs hvs
    have hli : lookupInput data (if tagGet tags tag = "" then name
        else tagGet tags tag) = some vs := by
      unfold lookupInput
      rw [hvs]
    rw [hstep, hli]
  · intro hex vs hfold
    have hli : lookupInput data (if tagGet tags tag = "" then name
        else tagGet tags tag) = some vs := by
      unfold lookupInput
      rw [hex, hfold]
    rw [hstep, hli]
  · intro hex hfold
    have hli : lookupInput data (if tagGet tags tag = "" then name
        else tagGet tags tag) = none := by
      unfold lookupInput
      rw [hex, hfold]
    rw [hstep, hli]

/-- C1 counterexample: an unclaimed int64-slice field matched by an
entry holding exactly one value.  The claim's "otherwise" clause
(which covers a sequence-kind field with exactly one value) predicts
direct scalar coercion of the single value into the slice field, which
is the Scalar Coercion Engine's "unknown type" failure on the Slice
kind; the code instead takes the sequence branch for any non-zero
number of values (numElems > 0, line 157) and builds a one-element
slice with no error.  The two runs disagree at this input. -/
theorem claim1_counterexample :
    bindFieldValue (.mk (.cSlice (.mk (.cInt .w64 0) none none) []) none none)
        ["5"] =
      some (.mk (.cSlice (.mk (.cInt .w64 0) none none)
        [.mk (.cInt .w64 5) none none]) none none, none) ∧
    setWithProperType
        (kindOf (.mk (.cSlice (.mk (.cInt .w64 0) none none) []) none none)) "5"
        (.mk (.cSlice (.mk (.cInt .w64 0) none none) []) none none) =
      some (.mk (.cSlice (.mk (.cInt .w64 0) none none) []) none none,
        some "unknown type") ∧
    bindFieldValue (.mk (.cSlice (.mk (.cInt .w64 0) none none) []) none none)
        ["5"] ≠
      setWithProperType
        (kindOf (.mk (.cSlice (.mk (.cInt .w64 0) none none) []) none none)) "5"
        (.mk (.cSlice (.mk (.cInt .w64 0) none none) []) none none) := by
  have hbind : bindFieldValue
      (.mk (.cSlice (.mk (.cInt .w64 0) none none) []) none none) ["5"] =
      some (.mk (.cSlice (.mk (.cInt .w64 0) none none)
        [.mk (.cInt .w64 5) none none]) none none, none) := by
    rw [bindFieldValue_slice _ _ _ (by simp)]
    simp [setSliceElems, setWithProperType, kindOf, GoValue.core, kindOfCore,
      unmarshalField, unmarshalFieldNonPtr, setIntField, ParseInt, effBits,
      digitsToNat?, digitsVal, truncInt, IW.bits, numError]
  have hscalar : setWithProperType
      (kindOf (.mk (.cSlice (.mk (.cInt .w64 0) none none) []) none none)) "5"
      (.mk (.cSlice (.mk (.cInt .w64 0) none none) []) none none) =
      some (.mk (.cSlice (.mk (.cInt .w64 0) none none) []) none none,
        some "unknown type") := by
    show setWithProperType Kind.kSlice "5"
      (.mk (.cSlice (.mk (.cInt .w64 0) none none) []) none none) = _
    rw [setWithProperType_no_caps (by simp) "5"
      (.mk (.cSlice (.mk (.cInt .w64 0) none none) []) none none) rfl rfl]
  refine ⟨hbind, hscalar, ?_⟩
  rw [hbind, hscalar]
  simp

/-- C1 (amended): for a matched field not claimed by custom-unmarshal
dispatch, a sequence-kind field whose matched entry holds at least one
value gets a fresh sequence of the element type, of length the number
of values, each value coerced by the Scalar Coercion Engine; otherwise
— any non-sequence kind, pointers included — the single first value is
coerced directly into the field via the Scalar Coercion Engine (for a
pointer field this is the field after the dispatch's documented
nil-allocation side effect, which is how line 166 receives it).  The
otherwise-part's "not claimed" hypothesis is the dispatch itself
reporting handled=false; for capability-free non-pointer fields that
dispatch leaves the field untouched (unmarshalField_no_caps), giving
back the plain coercion of the field.  Only the threshold changes from
the claim as stated: the code enters the sequence branch for one or
more values (numElems > 0), not only for more than one, as the
counterexample shows. -/
theorem claim1_amended (fv : GoValue) (v0 : String) (rest : List String) :
    (∀ z es0, fv = .mk (.cSlice z es0) none none →
      ∀ es, List.Forall₂
          (fun v e => setWithProperType (kindOf z) v z = some (e, none))
          (v0 :: rest) es →
        bindFieldValue fv (v0 :: rest) =
          some (.mk (.cSlice z es) none none, none) ∧
        es.length = (v0 :: rest).length) ∧
    (kindOf fv ≠ Kind.kSlice →
      ∀ fv1 e, unmarshalField (kindOf fv) v0 fv = some (fv1, false, e) →
        bindFieldValue fv (v0 :: rest) = setWithProperType (kindOf fv) v0 fv1) := by
  constructor
  · intro z es0 hfv es hall
    subst hfv
    rw [bindFieldValue_slice _ _ _ (by simp)]
    rw [setSliceElems_ok hall]
    exact ⟨rfl, (List.Forall₂.length_eq hall).symm⟩
  · intro hns fv1 e hum
    have hcond : ¬(kindOf fv = Kind.kSlice ∧ 0 < (v0 :: rest).length) :=
      fun hc => hns hc.1
    simp only [bindFieldValue, List.getElem?_cons_zero, hum, if_neg hcond]

/-- C2: when an element of a multi-value entry fails to coerce while
binding a sequence field, the binder returns exactly that element's
coercion error and the field keeps its previous elements — the
partially built sequence is never assigned. -/
theorem claim2_slice_element_error_aborts (z : GoValue) (es0 : List GoValue)
    (vs1 : List String) (es1 : List GoValue) (v : String)
    (vs2 : List String) (e : String) (z' : GoValue)
    (hok : List.Forall₂
      (fun a b => setWithProperType (kindOf z) a z = some (b, none)) vs1 es1)
    (hbad : setWithProperType (kindOf z) v z = some (z', some e))
    (hlen : 1 < (vs1 ++ v :: vs2).length) :
    bindFieldValue (.mk (.cSlice z es0) none none) (vs1 ++ v :: vs2) =
      some (.mk (.cSlice z es0) none none, some e) := by
  have hne : (vs1 ++ v :: vs2) ≠ [] := by simp
  rw [bindFieldValue_slice _ _ _ hne]
  rw [setSliceElems_error hbad vs2 hok]

/-- C8: on a mapping target the binder writes, for every source entry,
the entry's first value at the entry's key, in iteration order, the
last write winning when duplicate keys appear; it returns success and
never consults tags (the namespace argument is arbitrary and unused)
nor recurses. -/
theorem claim8_map_target (entries : List (String × String))
    (up ut : Option (String → Except String GoCore)) (data : SourceMap)
    (tag : String) (h : ValuesNonempty data) :
    ∃ es, bindDataVal (.mk (.cMap entries) up ut) data tag =
        some (.mk (.cMap es) up ut, none) ∧
      ∀ k, mapLookup es k =
        match data.reverse.find? (fun p => p.1 = k) with
        | some p => p.2[0]?
        | none => mapLookup entries k := by
  obtain ⟨es, hes, hlook⟩ := bindMapEntries_lookup data entries h
  refine ⟨es, ?_, hlook⟩
  rw [bindDataVal.eq_def]
  simp only
  rw [hes]

/-- C9: under the Source Value Map precondition (every key holds one
or more string values) every first-element access the binder makes —
the map write, custom-unmarshal dispatch, and single-value coercion —
is in bounds and the whole binding never panics; without the
precondition the unguarded accesses go out of bounds, witnessed here
with an empty value list on a struct target (the dispatch access) and
on a map target (the map-write access). -/
theorem claim9_first_element_access_safety :
    (∀ (ptr : Option GoValue) (data : SourceMap) (tag : String),
      ValuesNonempty data → (bindData ptr data tag).isSome) ∧
    bindData (some (.mk (.cStruct [.mk "X" [("query", "x")] true
      (.mk (.cString "") none none)]) none none)) [("x", [])] "query" = none ∧
    bindData (some (.mk (.cMap []) none none)) [("x", [])] "query" = none := by
  refine ⟨fun ptr data tag h => bindData_total ptr data tag h, ?_, ?_⟩
  · simp [bindData, bindDataVal, bindFields, bindOneField, bindFieldValue,
      lookupInput, lookupExact, lookupFold, tagGet, kindOf, GoValue.core,
      kindOfCore, GoValue.up, unmarshalField, unmarshalFieldNonPtr]
  · simp [bindData, bindDataVal, bindMapEntries]

/-- C7: a request with nonzero content length and a content type
matching none of the JSON, XML, text-xml, form or multipart prefixes
makes Bind return echo.ErrUnsupportedMediaType with the target exactly
as it was handed in — in particular neither the query-parameter nor
the path-parameter binding runs.  (An empty content-type header is
excluded by hypothesis: lines 29-31 default it to JSON before the
dispatch, so such a request is a JSON request.) -/
theorem claim7_unsupported_media_type (d : Decoders) (c : EchoContext)
    (i : Option GoValue)
    (hlen : 0 < c.request.contentLength)
    (hne : c.request.contentType ≠ "")
    (h1 : MIMEApplicationJSON.data.isPrefixOf c.request.contentType.data = false)
    (h2 : MIMEApplicationXML.data.isPrefixOf c.request.contentType.data = false)
    (h3 : MIMETextXML.data.isPrefixOf c.request.contentType.data = false)
    (h4 : MIMEApplicationForm.data.isPrefixOf c.request.contentType.data = false)
    (h5 : MIMEMultipartForm.data.isPrefixOf c.request.contentType.data = false) :
    Bind d c i = some (i, some ErrUnsupportedMediaType) := by
  unfold Bind bindBody
  rw [if_pos hlen]
  rw [if_neg hne]
  simp [h1, h2, h3, h4, h5]

/-- Witness for C1 (amended): binding ["1", "2"] into an empty
int64-slice field yields the two-element slice [1, 2]; and, for the
otherwise part on a pointer kind, binding "9" into a nil
pointer-to-int64 field allocates the pointee and coerces 9 into it. -/
theorem claim1_amended_witness :
    (bindFieldValue (.mk (.cSlice (.mk (.cInt .w64 0) none none) []) none none)
        ["1", "2"] =
      some (.mk (.cSlice (.mk (.cInt .w64 0) none none)
        [.mk (.cInt .w64 1) none none, .mk (.cInt .w64 2) none none]) none none,
        none)) ∧
    bindFieldValue (.mk (.cPtr (.mk (.cInt .w64 0) none none) none) none none)
        ["9"] =
      some (.mk (.cPtr (.mk (.cInt .w64 0) none none)
        (some (.mk (.cInt .w64 9) none none))) none none, none) := by
  refine ⟨?_, ?_⟩
  · have h1 : setWithProperType (kindOf (GoValue.mk (.cInt .w64 0) none none)) "1"
        (.mk (.cInt .w64 0) none none) =
        some (.mk (.cInt .w64 1) none none, none) := by
      simp [setWithProperType, kindOf, GoValue.core, kindOfCore, unmarshalField,
        unmarshalFieldNonPtr, setIntField, ParseInt, effBits, digitsToNat?,
        digitsVal, truncInt, IW.bits, numError]
    have h2 : setWithProperType (kindOf (GoValue.mk (.cInt .w64 0) none none)) "2"
        (.mk (.cInt .w64 0) none none) =
        some (.mk (.cInt .w64 2) none none, none) := by
      simp [setWithProperType, kindOf, GoValue.core, kindOfCore, unmarshalField,
        unmarshalFieldNonPtr, setIntField, ParseInt, effBits, digitsToNat?,
        digitsVal, truncInt, IW.bits, numError]
    exact ((claim1_amended
        (.mk (.cSlice (.mk (.cInt .w64 0) none none) []) none none)
        "1" ["2"]).1 (.mk (.cInt .w64 0) none none) [] rfl
        [.mk (.cInt .w64 1) none none, .mk (.cInt .w64 2) none none]
        (List.Forall₂.cons h1 (List.Forall₂.cons h2 List.Forall₂.nil))).1
  · have h := (claim1_amended
        (.mk (.cPtr (.mk (.cInt .w64 0) none none) none) none none) "9" []).2
        (by simp [kindOf, GoValue.core, kindOfCore])
        (.mk (.cPtr (.mk (.cInt .w64 0) none none)
          (some (.mk (.cInt .w64 0) none none))) none none) none rfl
    rw [h]
    show setWithProperType Kind.kPtr "9"
        (.mk (.cPtr (.mk (.cInt .w64 0) none none)
          (some (.mk (.cInt .w64 0) none none))) none none) = _
    simp [setWithProperType, kindOf, GoValue.core, kindOfCore, unmarshalField,
      unmarshalFieldPtr, unmarshalFieldNonPtr, setIntField, ParseInt, effBits,
      digitsToNat?, digitsVal, truncInt, IW.bits, numError]

/-- Witness for C2: the spec's example ["1", "bad", "3"] — the middle
element's parse error aborts and the empty slice field is unchanged. -/
theorem claim2_slice_element_error_aborts_witness :
    bindFieldValue (.mk (.cSlice (.mk (.cInt .w64 0) none none) []) none none)
        ["1", "bad", "3"] =
      some (.mk (.cSlice (.mk (.cInt .w64 0) none none) []) none none,
        some "strconv.ParseInt: parsing \x22bad\x22: invalid syntax") := by
  have h1 : setWithProperType (kindOf (GoValue.mk (.cInt .w64 0) none none)) "1"
      (.mk (.cInt .w64 0) none none) =
      some (.mk (.cInt .w64 1) none none, none) := by
    simp [setWithProperType, kindOf, GoValue.core, kindOfCore, unmarshalField,
      unmarshalFieldNonPtr, setIntField, ParseInt, effBits, digitsToNat?,
      digitsVal, truncInt, IW.bits, numError]
  have hbad : setWithProperType (kindOf (GoValue.mk (.cInt .w64 0) none none))
      "bad" (.mk (.cInt .w64 0) none none) =
      some (.mk (.cInt .w64 0) none none,
        some "strconv.ParseInt: parsing \x22bad\x22: invalid syntax") := by
    simp [setWithProperType, kindOf, GoValue.core, kindOfCore, unmarshalField,
      unmarshalFieldNonPtr, setIntField, ParseInt, effBits, digitsToNat?,
      digitsVal, truncInt, IW.bits, numError]
  have h := claim2_slice_element_error_aborts (.mk (.cInt .w64 0) none none) []
      ["1"] [.mk (.cInt .w64 1) none none] "bad" ["3"]
      "strconv.ParseInt: parsing \x22bad\x22: invalid syntax"
      (.mk (.cInt .w64 0) none none)
      (List.Forall₂.cons h1 List.Forall₂.nil) hbad (by simp)
  simpa using h

/-- Witness for C3: the spec's case-insensitive example — source key
"name" binds the field resolved as "Name" through the fold retry. -/
theorem claim3_lookup_exact_then_fold_witness :
    bindOneField (.mk "Name" [] true (.mk (.cString "") none none))
        [("name", ["v"])] "query" =
      match bindFieldValue (.mk (.cString "") none none) ["v"] with
      | none => none
      | some (fv', e) => some (.mk "Name" [] true fv', e) :=
  (claim3_lookup_exact_then_fold "Name" [] (.mk (.cString "") none none)
      [("name", ["v"])] "query"
      (by simp [tagGet, kindOf, GoValue.core, kindOfCore])).2.1
    (by decide) ["v"] (by decide)

/-- Witness for C5: an UnmarshalParam capability on an int-kind field
claims the first matched value, scalar coercion never running; and on
a nil pointer-to-int64 field whose pointee type carries the
capability, the dispatch allocates the pointee and the capability's
result becomes the pointee. -/
theorem claim5_custom_unmarshal_dispatch_witness :
    (bindFieldValue (.mk (.cInt .w64 0)
        (some fun _ => .ok (.cInt .w64 42)) none) ["7"] =
      some (.mk (.cInt .w64 42)
        (some fun _ => .ok (.cInt .w64 42)) none, none)) ∧
    bindFieldValue (.mk (.cPtr (.mk (.cInt .w64 0)
        (some fun _ => .ok (.cInt .w64 43)) none) none) none none) ["7"] =
      some (.mk (.cPtr (.mk (.cInt .w64 0)
          (some fun _ => .ok (.cInt .w64 43)) none)
        (some (.mk (.cInt .w64 43)
          (some fun _ => .ok (.cInt .w64 43)) none))) none none, none) := by
  refine ⟨?_, ?_⟩
  · have h := ((claim5_custom_unmarshal_dispatch
        (.mk (.cInt .w64 0) (some fun _ => .ok (.cInt .w64 42)) none) "7" []).1
        (by simp [kindOf, GoValue.core, kindOfCore])).1
        (fun _ => .ok (.cInt .w64 42)) rfl
    rw [h]
    exact rfl
  · have h := ((claim5_custom_unmarshal_dispatch
        (.mk (.cPtr (.mk (.cInt .w64 0)
          (some fun _ => .ok (.cInt .w64 43)) none) none) none none) "7" []).2
        (.mk (.cInt .w64 0) (some fun _ => .ok (.cInt .w64 43)) none)
        none none none rfl).1
        (fun _ => .ok (.cInt .w64 43)) rfl
    rw [h]
    exact rfl

/-- Witness for C6: the spec's nested-record example — an untagged
Addr field whose City member carries a query tag binds city=NYC. -/
theorem claim6_untagged_struct_recursion_witness :
    bindOneField (.mk "Addr" [] true (.mk (.cStruct
        [.mk "City" [("query", "city")] true (.mk (.cString "") none none)])
        none none)) [("city", ["NYC"])] "query" =
      some (.mk "Addr" [] true (.mk (.cStruct
        [.mk "City" [("query", "city")] true (.mk (.cString "NYC") none none)])
        none none), none) := by
  rw [claim6_untagged_struct_recursion "Addr" []
    (.mk (.cStruct [.mk "City" [("query", "city")] true
      (.mk (.cString "") none none)]) none none)
    [("city", ["NYC"])] "query" (by decide) rfl rfl rfl]
  simp [bindData, bindDataVal, bindFields, bindOneField, bindFieldValue,
    lookupInput, lookupExact, lookupFold, tagGet, kindOf, GoValue.core,
    kindOfCore, GoValue.up, unmarshalField, unmarshalFieldNonPtr,
    setWithProperType]

/-- Witness for C7: application/octet-stream with a non-empty body is
refused with the 415 envelope and the nil target stays nil. -/
theorem claim7_unsupported_media_type_witness :
    Bind ⟨fun _ i => .ok i, fun _ i => .ok i⟩
      ⟨⟨5, "application/octet-stream", "xxxxx"⟩, .ok [], [], [], []⟩ none =
      some (none, some ErrUnsupportedMediaType) :=
  claim7_unsupported_media_type ⟨fun _ i => .ok i, fun _ i => .ok i⟩
    ⟨⟨5, "application/octet-stream", "xxxxx"⟩, .ok [], [], [], []⟩ none
    (by decide) (by decide) (by decide) (by decide) (by decide) (by decide)
    (by decide)

/-- Witness for C8: duplicate source keys on a map target — the later
entry's first value wins. -/
theorem claim8_map_target_witness :
    ValuesNonempty [("a", ["1", "2"]), ("a", ["3"])] ∧
    ∃ es, bindDataVal (.mk (.cMap []) none none)
        [("a", ["1", "2"]), ("a", ["3"])] "form" =
        some (.mk (.cMap es) none none, none) ∧
      ∀ k, mapLookup es k =
        match ([("a", ["1", "2"]), ("a", ["3"])] : SourceMap).reverse.find?
            (fun p => p.1 = k) with
        | some p => p.2[0]?
        | none => mapLookup [] k :=
  ⟨by decide, claim8_map_target [] none none [("a", ["1", "2"]), ("a", ["3"])]
    "form" (by decide)⟩

/-- Witness for C9: a concrete map satisfying the precondition binds
without a panic. -/
theorem claim9_first_element_access_safety_witness :
    ValuesNonempty [("q", ["v"])] ∧
    (bindData (some (.mk (.cStruct []) none none)) [("q", ["v"])]
      "query").isSome :=
  ⟨by decide, (claim9_first_element_access_safety).1
    (some (.mk (.cStruct []) none none)) [("q", ["v"])] "query" (by decide)⟩

/-- Witness for C10: a tagged empty-struct field matched by "s" fails
with "unknown type" instead of recursing. -/
theorem claim10_tagged_struct_unknown_type_witness :
    bindOneField (.mk "S" [("query", "s")] true (.mk (.cStruct []) none none))
        [("s", ["x"])] "query" =
      some (.mk "S" [("query", "s")] true (.mk (.cStruct []) none none),
        some "unknown type") :=
  claim10_tagged_struct_unknown_type "S" [("query", "s")]
    (.mk (.cStruct []) none none) [("s", ["x"])] "query" (by decide) rfl rfl
    rfl "x" [] (by decide)

end DataBind
